import Mathlib

/-!
Verification of the builder repository's relay client and greedy block
builder against its specification.

The Go source is shallowly embedded: every stateful method becomes a pure
Lean function on an explicit state record, with the HTTP transport
represented by an oracle (a function from attempt number, or a single
result value) supplied as an argument.  Machine integers (`uint64`, HTTP
status codes) are modelled as `Nat`; Go's `error` results become
`Except`/`Option` values.
-/

/-- Validator registration data held per slot, mirroring the Go
`ValidatorData` struct: lowercased pubkey hex, fee-recipient address
(kept abstract as its hex string), and gas limit. -/
structure ValidatorData where
  pubkey : String
  feeRecipient : String
  gasLimit : Nat
deriving DecidableEq, Repr

/-- The slot-to-validator map.  Go uses `map[uint64]ValidatorData`; we use
an association list with first-match lookup. -/
abbrev SlotMap := List (Nat × ValidatorData)

/-- First-match lookup in a `SlotMap`, the embedding of Go's map read
`r.validatorSlotMap[nextSlot]`. -/
def lookupSlot : SlotMap → Nat → Option ValidatorData
  | [], _ => none
  | (s, vd) :: rest, slot => if s = slot then some vd else lookupSlot rest slot

/-- Errors returned by the relay client.  `syncOngoing` embeds the
`errors.New("sync is ongoing")` value, `fetch e` wraps a transport error
(abstracted to a numeric code) from `getSlotValidatorMapFromRelay`, and
`validatorNotFound` is the distinct `ErrValidatorNotFound` sentinel. -/
inductive RelayError where
  | syncOngoing : RelayError
  | fetch : Nat → RelayError
  | validatorNotFound : RelayError
deriving DecidableEq, Repr

/-- The mutable registry state of a `RemoteRelay`: the in-progress flag,
the last-requested-slot watermark, and the slot map.  The endpoint and
HTTP client are not part of the verified state. -/
structure RemoteRelayState where
  validatorSyncOngoing : Bool
  lastRequestedSlot : Nat
  validatorSlotMap : SlotMap
deriving DecidableEq, Repr

/-- One network fetch attempt, as seen by `updateValidatorsMap`: attempt
number `k` (0 = the initial attempt) yields either a transport error code
or a fresh slot map.  `getSlotValidatorMapFromRelay` itself is the oracle
argument. -/
def FetchOracle := Nat → Except Nat SlotMap

/-- The retry loop of `updateValidatorsMap`: perform attempt `k`; while it
fails and retries remain, sleep (elided) and try again, consuming one
retry per extra attempt.  Returns the first success or the last failure. -/
def fetchLoop (fetch : FetchOracle) : Nat → Nat → Except Nat SlotMap
  | k, retries =>
    match fetch k with
    | Except.ok m => Except.ok m
    | Except.error e =>
      match retries with
      | 0 => Except.error e
      | r + 1 => fetchLoop fetch (k + 1) r

/-- Embedding of `RemoteRelay.updateValidatorsMap`.  If a sync is already
ongoing it fails immediately without touching the oracle; otherwise it
marks the sync ongoing, runs the fetch-with-retries, and either clears the
flag and returns the error (map and watermark untouched) or installs the
new map and watermark and clears the flag.  The sequential embedding
returns the state as observed after the method returns. -/
def updateValidatorsMap (fetch : FetchOracle) (currentSlot : Nat) (retries : Nat)
    (r : RemoteRelayState) : RemoteRelayState × Except RelayError Unit :=
  if r.validatorSyncOngoing then
    (r, Except.error RelayError.syncOngoing)
  else
    match fetchLoop fetch 0 retries with
    | Except.error e =>
      ({ r with validatorSyncOngoing := false }, Except.error (RelayError.fetch e))
    | Except.ok newMap =>
      ({ validatorSyncOngoing := false
         lastRequestedSlot := currentSlot
         validatorSlotMap := newMap }, Except.ok ())

/-- The local-override relay, as seen by `GetValidatorForSlot`: when
configured (`some f`), `f slot` is the result of
`localRelay.GetValidatorForSlot(slot)` — `some vd` on success, `none` when
it returns an error. -/
def LocalRelayOracle := Option (Nat → Option ValidatorData)

/-- Embedding of `RemoteRelay.GetValidatorForSlot`.  The first component
is the returned `(ValidatorData, error)` pair; the second records the
asynchronous refresh request fired by the epoch check — `some (slot,
retries)` when `go updateValidatorsMap(nextSlot, 1)` is spawned, `none`
otherwise.  The spawned refresh runs detached and cannot affect this
lookup's own result, which the embedding makes structural. -/
def GetValidatorForSlot (localRelay : LocalRelayOracle) (r : RemoteRelayState)
    (nextSlot : Nat) : Except RelayError ValidatorData × Option (Nat × Nat) :=
  let refreshReq :=
    if r.lastRequestedSlot = 0 ∨ nextSlot / 32 > r.lastRequestedSlot / 32 then
      some (nextSlot, 1)
    else
      none
  let vd := lookupSlot r.validatorSlotMap nextSlot
  let res :=
    match localRelay with
    | some f =>
      match f nextSlot with
      | some localValidator => Except.ok localValidator
      | none =>
        match vd with
        | some v => Except.ok v
        | none => Except.error RelayError.validatorNotFound
    | none =>
      match vd with
      | some v => Except.ok v
      | none => Except.error RelayError.validatorNotFound
  (res, refreshReq)

/-- Embedding of `NewRemoteRelay`: build the zero-initialised state, run
`updateValidatorsMap(0, 3)`, log-and-ignore its error, and return the
resulting state. -/
def NewRemoteRelay (fetch : FetchOracle) : RemoteRelayState :=
  let r0 : RemoteRelayState :=
    { validatorSyncOngoing := false
      lastRequestedSlot := 0
      validatorSlotMap := [] }
  (updateValidatorsMap fetch 0 3 r0).1

/-- If every attempt the loop can make fails, the loop returns an error. -/
lemma fetchLoop_error_of_all_error (fetch : FetchOracle) :
    ∀ retries k, (∀ j, k ≤ j → j ≤ k + retries → ∃ e, fetch j = Except.error e) →
    ∃ e, fetchLoop fetch k retries = Except.error e := by
  intro retries
  induction retries with
  | zero =>
    intro k h
    obtain ⟨e, he⟩ := h k le_rfl (Nat.le_add_right k 0)
    exact ⟨e, by simp [fetchLoop, he]⟩
  | succ r ih =>
    intro k h
    obtain ⟨e, he⟩ := h k le_rfl (Nat.le_add_right k (r + 1))
    obtain ⟨e2, he2⟩ := ih (k + 1) (by
      intro j hj1 hj2
      exact h j (Nat.le_of_succ_le hj1) (by omega))
    exact ⟨e2, by simp [fetchLoop, he, he2]⟩

/-- C1: while a refresh is in progress, `updateValidatorsMap` returns the
"sync is ongoing" error immediately, performs no fetch (the result is
independent of the fetch oracle), and leaves the validator map, the
watermark, and the in-progress flag unchanged. -/
theorem updateValidatorsMap_sync_ongoing (fetch : FetchOracle) (currentSlot retries : Nat)
    (r : RemoteRelayState) (h : r.validatorSyncOngoing = true) :
    updateValidatorsMap fetch currentSlot retries r =
      (r, Except.error RelayError.syncOngoing) ∧
    ∀ fetch2 : FetchOracle,
      updateValidatorsMap fetch2 currentSlot retries r =
        updateValidatorsMap fetch currentSlot retries r := by
  constructor
  · simp [updateValidatorsMap, h]
  · intro fetch2
    simp [updateValidatorsMap, h]

/-- Closed witness for C1. -/
theorem updateValidatorsMap_sync_ongoing_witness :
    updateValidatorsMap (fun _ => Except.ok []) 7 3
        { validatorSyncOngoing := true, lastRequestedSlot := 5, validatorSlotMap := [] } =
      ({ validatorSyncOngoing := true, lastRequestedSlot := 5, validatorSlotMap := [] },
        Except.error RelayError.syncOngoing) :=
  (updateValidatorsMap_sync_ongoing (fun _ => Except.ok []) 7 3
    { validatorSyncOngoing := true, lastRequestedSlot := 5, validatorSlotMap := [] } rfl).1

/-- Example validator registration used by concrete witnesses. -/
def vdExample : ValidatorData :=
  { pubkey := "0xaaaa", feeRecipient := "0xbbbb", gasLimit := 30000000 }

/-- Second example validator registration, used as a local override. -/
def vdLocalExample : ValidatorData :=
  { pubkey := "0xcccc", feeRecipient := "0xdddd", gasLimit := 25000000 }

/-- Example registry state holding one slot, used by concrete witnesses. -/
def relayStateExample : RemoteRelayState :=
  { validatorSyncOngoing := false
    lastRequestedSlot := 40
    validatorSlotMap := [(5, vdExample)] }

/-- C2: when no sync is ongoing and the fetch fails on the initial attempt
and on every retry, `updateValidatorsMap` returns the fetch error with the
in-progress flag cleared and the map and watermark exactly as before, and
a subsequent `GetValidatorForSlot` (no local override) for a slot present
in the old map still returns that stale entry. -/
theorem updateValidatorsMap_all_retries_fail (fetch : FetchOracle) (currentSlot retries : Nat)
    (r : RemoteRelayState) (hsync : r.validatorSyncOngoing = false)
    (hfail : ∀ j, j ≤ retries → ∃ e, fetch j = Except.error e) :
    (∃ e, updateValidatorsMap fetch currentSlot retries r =
      (r, Except.error (RelayError.fetch e))) ∧
    ∀ s vd, lookupSlot r.validatorSlotMap s = some vd →
      (GetValidatorForSlot none (updateValidatorsMap fetch currentSlot retries r).1 s).1 =
        Except.ok vd := by
  obtain ⟨e, he⟩ := fetchLoop_error_of_all_error fetch retries 0
    (fun j _ hj2 => hfail j (by omega))
  have hstate : ({ r with validatorSyncOngoing := false } : RemoteRelayState) = r := by
    cases r
    simp_all
  have hupd : updateValidatorsMap fetch currentSlot retries r =
      (r, Except.error (RelayError.fetch e)) := by
    simp [updateValidatorsMap, hsync, he, hstate]
  refine ⟨⟨e, hupd⟩, ?_⟩
  intro s vd hvd
  rw [hupd]
  simp [GetValidatorForSlot, hvd]

/-- Closed witness for C2: a fetch oracle that always fails, a registry
holding slot 5; the stale entry survives and remains readable. -/
theorem updateValidatorsMap_all_retries_fail_witness :
    ((∃ e, updateValidatorsMap (fun _ => Except.error 9) 64 3 relayStateExample =
      (relayStateExample, Except.error (RelayError.fetch e))) ∧
    ∀ s vd, lookupSlot relayStateExample.validatorSlotMap s = some vd →
      (GetValidatorForSlot none
        (updateValidatorsMap (fun _ => Except.error 9) 64 3 relayStateExample).1 s).1 =
          Except.ok vd) :=
  updateValidatorsMap_all_retries_fail (fun _ => Except.error 9) 64 3 relayStateExample rfl
    (fun _ _ => ⟨9, rfl⟩)

/-- C3: the local override always wins when configured and successful;
otherwise the remote map entry is returned when present; otherwise the
distinct `ErrValidatorNotFound` sentinel is returned. -/
theorem GetValidatorForSlot_override_priority (localRelay : LocalRelayOracle)
    (r : RemoteRelayState) (nextSlot : Nat) :
    (∀ f lv, localRelay = some f → f nextSlot = some lv →
      (GetValidatorForSlot localRelay r nextSlot).1 = Except.ok lv) ∧
    ((localRelay = none ∨ ∃ f, localRelay = some f ∧ f nextSlot = none) →
      ∀ vd, lookupSlot r.validatorSlotMap nextSlot = some vd →
        (GetValidatorForSlot localRelay r nextSlot).1 = Except.ok vd) ∧
    ((localRelay = none ∨ ∃ f, localRelay = some f ∧ f nextSlot = none) →
      lookupSlot r.validatorSlotMap nextSlot = none →
      (GetValidatorForSlot localRelay r nextSlot).1 =
        Except.error RelayError.validatorNotFound) := by
  refine ⟨?_, ?_, ?_⟩
  · intro f lv hl hf
    simp [GetValidatorForSlot, hl, hf]
  · rintro (hl | ⟨f, hl, hf⟩) vd hvd <;> simp [GetValidatorForSlot, hl, hvd, *]
  · rintro (hl | ⟨f, hl, hf⟩) hvd <;> simp [GetValidatorForSlot, hl, hvd, *]

/-- Local override oracle used by the C3 witness: registered for slot 5
only. -/
def localOverrideExample : Nat → Option ValidatorData :=
  fun s => if s = 5 then some vdLocalExample else none

/-- Closed witness for C3: slot 5 is in both the remote map and the local
override, and the local override's data is returned. -/
theorem GetValidatorForSlot_override_priority_witness :
    (GetValidatorForSlot (some localOverrideExample) relayStateExample 5).1 =
      Except.ok vdLocalExample :=
  (GetValidatorForSlot_override_priority (some localOverrideExample) relayStateExample 5).1
    localOverrideExample vdLocalExample rfl rfl

/-- C8: the fire-and-forget refresh request returned by a lookup is
`(nextSlot, 1)` — target the requested slot, a single retry — exactly when
the watermark still has its initial value 0 (as on the first lookup ever)
or the requested slot's epoch (slot / 32) exceeds the watermark's epoch;
otherwise no refresh is spawned.  The lookup's own result is the first
component, computed from the pre-refresh state alone, so the lookup never
blocks on, and is never affected by, the refresh it triggers. -/
theorem GetValidatorForSlot_refresh_trigger (localRelay : LocalRelayOracle)
    (r : RemoteRelayState) (nextSlot : Nat) :
    ((GetValidatorForSlot localRelay r nextSlot).2 = some (nextSlot, 1) ↔
      (r.lastRequestedSlot = 0 ∨ nextSlot / 32 > r.lastRequestedSlot / 32)) ∧
    ((GetValidatorForSlot localRelay r nextSlot).2 = none ↔
      ¬(r.lastRequestedSlot = 0 ∨ nextSlot / 32 > r.lastRequestedSlot / 32)) := by
  by_cases h : r.lastRequestedSlot = 0 ∨ nextSlot / 32 > r.lastRequestedSlot / 32 <;>
    simp [GetValidatorForSlot, h]

/-- C9: `NewRemoteRelay` always yields a relay state: the initial refresh
runs for slot 0 with 3 retries, a failure is only logged (the state keeps
the empty map), a success installs the fetched map — and in both cases the
watermark is 0 and no sync is marked ongoing. -/
theorem NewRemoteRelay_initial_state (fetch : FetchOracle) :
    (NewRemoteRelay fetch).lastRequestedSlot = 0 ∧
    (NewRemoteRelay fetch).validatorSyncOngoing = false ∧
    (∀ e, fetchLoop fetch 0 3 = Except.error e →
      (NewRemoteRelay fetch).validatorSlotMap = []) ∧
    (∀ m, fetchLoop fetch 0 3 = Except.ok m →
      (NewRemoteRelay fetch).validatorSlotMap = m) := by
  unfold NewRemoteRelay updateValidatorsMap
  cases hfl : fetchLoop fetch 0 3 <;> simp [hfl]

/-- Closed witness for C9: a fetch oracle that succeeds immediately; the
map is installed but the watermark stays 0. -/
theorem NewRemoteRelay_initial_state_witness :
    (NewRemoteRelay (fun _ => Except.ok [(1, vdExample)])).validatorSlotMap =
        [(1, vdExample)] ∧
    (NewRemoteRelay (fun _ => Except.ok [(1, vdExample)])).lastRequestedSlot = 0 :=
  ⟨(NewRemoteRelay_initial_state (fun _ => Except.ok [(1, vdExample)])).2.2.2
      [(1, vdExample)] rfl,
    (NewRemoteRelay_initial_state (fun _ => Except.ok [(1, vdExample)])).1⟩

/-- The fields of a decoded `GetHeaderResponse` that `GetHeader` inspects:
the `IsInvalid()` structural-validity check, the bid value (a `big.Int`,
whose `String() == "0"` test is exactly `value = 0`), and the identifying
hex strings. -/
structure GetHeaderResponse where
  invalid : Bool
  value : Int
  parentHash : String
  pubkey : String
  transactionsRoot : String
deriving DecidableEq, Repr

/-- Outcome of `server.SendHTTPRequest` on a GET: either a transport
error (abstracted to a numeric code) or a status code together with the
decoded payload. -/
inductive HttpGetResult where
  | fail : Nat → HttpGetResult
  | resp : Nat → GetHeaderResponse → HttpGetResult
deriving DecidableEq, Repr

/-- The canonical transactions-root of an empty transaction list, the
literal compared against in `GetHeader`. -/
def emptyListTxRoot : String :=
  "0x7ffe241ea60187fdb0187bfa22de35d1f9bed7ab061d9401fd47e34a54fbede1"

/-- Embedding of `RemoteRelay.GetHeader`, given the transport outcome.
Mirrors the source control flow: transport error → error; 204 → ok;
invalid payload → ok; zero value or empty-list transactions-root → ok;
otherwise a bid was received → ok. -/
def GetHeader (res : HttpGetResult) : Except Nat Unit :=
  match res with
  | HttpGetResult.fail e => Except.error e
  | HttpGetResult.resp code payload =>
    if code = 204 then Except.ok ()
    else if payload.invalid then Except.ok ()
    else if payload.value = 0 ∨ payload.transactionsRoot = emptyListTxRoot then
      Except.ok ()
    else Except.ok ()

/-- Ghost observer for `GetHeader`: `true` exactly on the control path
that reaches the final "bid received" log line, i.e. when the response is
kept as a usable bid rather than discarded. -/
def bidAccepted (res : HttpGetResult) : Bool :=
  match res with
  | HttpGetResult.fail _ => false
  | HttpGetResult.resp code payload =>
    if code = 204 then false
    else if payload.invalid then false
    else if payload.value = 0 ∨ payload.transactionsRoot = emptyListTxRoot then false
    else true

/-- C6: `GetHeader` returns an error exactly on a transport failure; a
204 no-content response, a structurally invalid payload, a zero-value
payload, and an empty-list transactions-root all return success while the
response is not accepted as a usable bid. -/
theorem GetHeader_error_iff_transport (res : HttpGetResult) :
    (∀ e, GetHeader res = Except.error e ↔ res = HttpGetResult.fail e) ∧
    (∀ code payload, res = HttpGetResult.resp code payload →
      (code = 204 ∨ payload.invalid = true ∨ payload.value = 0 ∨
        payload.transactionsRoot = emptyListTxRoot) →
      GetHeader res = Except.ok () ∧ bidAccepted res = false) := by
  constructor
  · intro e
    cases res with
    | fail e2 => simp [GetHeader]
    | resp code payload =>
      have hok : GetHeader (HttpGetResult.resp code payload) = Except.ok () := by
        simp only [GetHeader]
        split
        · rfl
        · split
          · rfl
          · split <;> rfl
      simp [hok]
  · rintro code payload rfl hcase
    rcases hcase with h | h | h | h <;>
      simp [GetHeader, bidAccepted, h]

/-- Closed witness for C6: a 204 response and a zero-value payload each
yield success with no accepted bid. -/
theorem GetHeader_error_iff_transport_witness :
    GetHeader (HttpGetResult.resp 204
        { invalid := false, value := 7, parentHash := "0x01", pubkey := "0x02",
          transactionsRoot := "0x03" }) = Except.ok () ∧
    bidAccepted (HttpGetResult.resp 204
        { invalid := false, value := 7, parentHash := "0x01", pubkey := "0x02",
          transactionsRoot := "0x03" }) = false :=
  (GetHeader_error_iff_transport
      (HttpGetResult.resp 204
        { invalid := false, value := 7, parentHash := "0x01", pubkey := "0x02",
          transactionsRoot := "0x03" })).2 204
    { invalid := false, value := 7, parentHash := "0x01", pubkey := "0x02",
      transactionsRoot := "0x03" } rfl (Or.inl rfl)

/-- Errors returned by the block-submission methods: a transport failure
from the POST, or a response status code above 299. -/
inductive SubmitError where
  | transport : Nat → SubmitError
  | badStatus : Nat → SubmitError
deriving DecidableEq, Repr

/-- Embedding of `RemoteRelay.SubmitBlock`, given whether a local relay is
configured and the POST outcome (`Except.error e` = transport failure,
`Except.ok code` = response status).  The second component records whether
the block was mirrored into the local relay via `localRelay.submitBlock`. -/
def SubmitBlock (localRelayConfigured : Bool) (post : Except Nat Nat) :
    Except SubmitError Unit × Bool :=
  match post with
  | Except.error e => (Except.error (SubmitError.transport e), false)
  | Except.ok code =>
    if code > 299 then (Except.error (SubmitError.badStatus code), false)
    else (Except.ok (), localRelayConfigured)

/-- Embedding of `RemoteRelay.SubmitBlockCapella`: identical control flow
to `SubmitBlock` over the Capella payload type, mirroring on success via
`localRelay.submitBlockCapella`. -/
def SubmitBlockCapella (localRelayConfigured : Bool) (post : Except Nat Nat) :
    Except SubmitError Unit × Bool :=
  match post with
  | Except.error e => (Except.error (SubmitError.transport e), false)
  | Except.ok code =>
    if code > 299 then (Except.error (SubmitError.badStatus code), false)
    else (Except.ok (), localRelayConfigured)

/-- C7 counterexample: status 100 is not a 2xx code, yet `SubmitBlock`
succeeds (and mirrors), because the source only rejects codes above 299.
This refutes the claim's "failure iff transport error or status not 2xx". -/
theorem SubmitBlock_not2xx_counterexample :
    (SubmitBlock true (Except.ok 100)).1 = Except.ok () ∧
    ¬(200 ≤ 100 ∧ 100 ≤ 299) := by
  constructor
  · rfl
  · decide

/-- C7 as amended: both submission variants have identical behaviour, and
each fails exactly on a transport error or a status code above 299 (1xx
codes are accepted, contrary to a literal "not 2xx" reading); on success
the block is mirrored into the local relay exactly when one is
configured. -/
theorem SubmitBlock_contract (localRelayConfigured : Bool) (post : Except Nat Nat) :
    SubmitBlock localRelayConfigured post = SubmitBlockCapella localRelayConfigured post ∧
    (∀ e, post = Except.error e →
      SubmitBlock localRelayConfigured post =
        (Except.error (SubmitError.transport e), false)) ∧
    (∀ code, post = Except.ok code → code > 299 →
      SubmitBlock localRelayConfigured post =
        (Except.error (SubmitError.badStatus code), false)) ∧
    (∀ code, post = Except.ok code → code ≤ 299 →
      SubmitBlock localRelayConfigured post = (Except.ok (), localRelayConfigured)) := by
  refine ⟨?_, ?_, ?_, ?_⟩
  · cases post with
    | error e => rfl
    | ok code => simp [SubmitBlock, SubmitBlockCapella]
  · rintro e rfl
    rfl
  · rintro code rfl hcode
    simp [SubmitBlock, hcode]
  · rintro code rfl hcode
    simp [SubmitBlock, Nat.not_lt_of_le hcode]

/-- Closed witness for C7's amended theorem: a 200 response with a local
relay configured succeeds and mirrors the block. -/
theorem SubmitBlock_contract_witness :
    SubmitBlock true (Except.ok 200) = (Except.ok (), true) :=
  (SubmitBlock_contract true (Except.ok 200)).2.2.2 200 rfl (by decide)

/-- An order peeked from `TransactionsByPriceAndNonce`: either a single
transaction or an atomic bundle, each abstracted to an identifier.  The
discriminated union mirrors the `order.Tx() != nil` / `order.Bundle() !=
nil` dispatch in `mergeOrdersIntoEnvDiff`. -/
inductive Order where
  | tx : Nat → Order
  | bundle : Nat → Order
deriving DecidableEq, Repr

/-- The disposition returned by `commitTx`, matching the `shiftTx` /
`popTx` constants switched on in the merge loop. -/
inductive TxSkip where
  | shiftTx : TxSkip
  | popTx : TxSkip
deriving DecidableEq, Repr

/-- The cursor interface of `TransactionsByPriceAndNonce` consumed by the
merge loop: `peek` inspects the current best order, `shift` advances to
the same sender's next transaction, `pop` discards the sender's remaining
queue or the bundle.  The ordering logic itself lives in the excluded
`types` collaborator, so the supply is kept abstract. -/
structure OrderSupply (σ : Type) where
  peek : σ → Option Order
  shift : σ → σ
  pop : σ → σ

/-- Modelled from the spec: `environmentDiff.commitTx` belongs to the
excluded state-transition collaborator (its body is not in the sources).
Per the spec it returns a receipt, a disposition and an error, and is
side-effect-free on failure, so an attempt yields the disposition
together with either an error or the receipt and the updated
environment. -/
def CommitTxOracle (ε : Type) := Nat → ε → TxSkip × Except Nat (Nat × ε)

/-- Modelled from the spec: `environmentDiff.commitBundle` belongs to the
excluded state-transition collaborator.  Per the spec it is all-or-nothing:
an attempt either fails with the environment unchanged or returns the
updated environment. -/
def CommitBundleOracle (ε : Type) := Nat → ε → Except Nat ε

/-- Embedding of the loop body of `greedyBuilder.mergeOrdersIntoEnvDiff`,
fuel-indexed (the Go loop runs until `Peek` returns nil; `fuel` bounds the
number of iterations the embedding may take).  State: the supply cursor,
the speculative environment, and the accumulated used-bundles list. -/
def mergeOrdersLoop {σ ε : Type} (S : OrderSupply σ) (cT : CommitTxOracle ε)
    (cB : CommitBundleOracle ε) : Nat → σ → ε → List Nat → ε × List Nat
  | 0, _, env, used => (env, used)
  | fuel + 1, s, env, used =>
    match S.peek s with
    | none => (env, used)
    | some (Order.tx t) =>
      let attempt := cT t env
      let s2 :=
        match attempt.1 with
        | TxSkip.shiftTx => S.shift s
        | TxSkip.popTx => S.pop s
      match attempt.2 with
      | Except.error _ => mergeOrdersLoop S cT cB fuel s2 env used
      | Except.ok (_, env2) => mergeOrdersLoop S cT cB fuel s2 env2 used
    | some (Order.bundle b) =>
      match cB b env with
      | Except.error _ => mergeOrdersLoop S cT cB fuel (S.pop s) env used
      | Except.ok env2 => mergeOrdersLoop S cT cB fuel (S.pop s) env2 (used ++ [b])

/-- Embedding of `greedyBuilder.mergeOrdersIntoEnvDiff`: run the merge
loop starting from an empty used-bundles list. -/
def mergeOrdersIntoEnvDiff {σ ε : Type} (S : OrderSupply σ) (cT : CommitTxOracle ε)
    (cB : CommitBundleOracle ε) (fuel : Nat) (s : σ) (env : ε) : ε × List Nat :=
  mergeOrdersLoop S cT cB fuel s env []

/-- C4: when the peeked order is a bundle, the iteration pops the supply
exactly once whether `commitBundle` succeeds or fails — the loop resumes
from `S.pop s`, never retrying the bundle — and the bundle is appended to
the used-bundles accumulator precisely in the success case. -/
theorem mergeOrders_bundle_pop_once {σ ε : Type} (S : OrderSupply σ)
    (cT : CommitTxOracle ε) (cB : CommitBundleOracle ε) (fuel : Nat) (s : σ)
    (env : ε) (used : List Nat) (b : Nat)
    (hpeek : S.peek s = some (Order.bundle b)) :
    (∀ env2, cB b env = Except.ok env2 →
      mergeOrdersLoop S cT cB (fuel + 1) s env used =
        mergeOrdersLoop S cT cB fuel (S.pop s) env2 (used ++ [b])) ∧
    (∀ e, cB b env = Except.error e →
      mergeOrdersLoop S cT cB (fuel + 1) s env used =
        mergeOrdersLoop S cT cB fuel (S.pop s) env used) := by
  constructor
  · intro env2 hc
    simp [mergeOrdersLoop, hpeek, hc]
  · intro e hc
    simp [mergeOrdersLoop, hpeek, hc]

/-- C5: when the peeked order is a transaction and `commitTx` fails, the
iteration advances the supply cursor according to the returned disposition
(`shiftTx` advances the sender's queue, `popTx` drops it), contributes
nothing to the environment or the used-bundles list, and the loop
continues with the remaining orders — the error never aborts the build. -/
theorem mergeOrders_tx_error_skips {σ ε : Type} (S : OrderSupply σ)
    (cT : CommitTxOracle ε) (cB : CommitBundleOracle ε) (fuel : Nat) (s : σ)
    (env : ε) (used : List Nat) (t : Nat)
    (hpeek : S.peek s = some (Order.tx t)) :
    ∀ skip e, cT t env = (skip, Except.error e) →
      mergeOrdersLoop S cT cB (fuel + 1) s env used =
        mergeOrdersLoop S cT cB fuel
          (match skip with
           | TxSkip.shiftTx => S.shift s
           | TxSkip.popTx => S.pop s)
          env used := by
  intro skip e hc
  simp [mergeOrdersLoop, hpeek, hc]

/-- Flat-list instantiation of the supply interface, used by concrete
witnesses: `peek` is the head, and both cursor moves take the tail. -/
def listSupply : OrderSupply (List Order) :=
  { peek := List.head?
    shift := List.tail
    pop := List.tail }

/-- Transaction-commit oracle for witnesses: always fails with disposition
`shiftTx`. -/
def cTxAlwaysFails : CommitTxOracle Nat := fun _ _ => (TxSkip.shiftTx, Except.error 3)

/-- Bundle-commit oracle for witnesses: commits bundle `b` by replacing
the environment with `b`. -/
def cBundleInstall : CommitBundleOracle Nat := fun b _ => Except.ok b

/-- Closed witness for C4: committing bundle 7 pops the supply and appends
7 to the used list. -/
theorem mergeOrders_bundle_pop_once_witness :
    mergeOrdersLoop listSupply cTxAlwaysFails cBundleInstall 2 [Order.bundle 7] 0 [] =
      mergeOrdersLoop listSupply cTxAlwaysFails cBundleInstall 1
        (listSupply.pop [Order.bundle 7]) 7 ([] ++ [7]) :=
  (mergeOrders_bundle_pop_once listSupply cTxAlwaysFails cBundleInstall 1
      [Order.bundle 7] 0 [] 7 rfl).1 7 rfl

/-- Closed witness for C5: a failing transaction commit shifts the supply
and leaves environment and used list unchanged. -/
theorem mergeOrders_tx_error_skips_witness :
    mergeOrdersLoop listSupply cTxAlwaysFails cBundleInstall 2 [Order.tx 4] 0 [] =
      mergeOrdersLoop listSupply cTxAlwaysFails cBundleInstall 1
        (listSupply.shift [Order.tx 4]) 0 [] :=
  mergeOrders_tx_error_skips listSupply cTxAlwaysFails cBundleInstall 1 [Order.tx 4]
    0 [] 4 rfl TxSkip.shiftTx 3 rfl


/-- A scanned input line (or a field of one), as its character list.  Go
strings are modelled as character lists here so that the space-splitting
is structurally computable. -/
abbrev Line := List Char

/-- The characters before the first space and those after it, or `none`
when the line contains no space. -/
def splitFirstSpace : Line → Option (Line × Line)
  | [] => none
  | c :: rest =>
    if c = ' ' then some ([], rest)
    else
      match splitFirstSpace rest with
      | none => none
      | some (pre, post) => some (c :: pre, post)

/-- Embedding of Go's `strings.SplitN(line, " ", 2)`: the piece before the
first space and the remainder, or the whole line as a single piece when it
contains no space. -/
def splitN2 (line : Line) : List Line :=
  match splitFirstSpace line with
  | none => [line]
  | some (pre, post) => [pre, post]

/-- The per-line body of `PendingTxsFromFile`, folding over the scanned
lines with the accumulated sender map.  `common.HexToAddress` and
`Transaction.UnmarshalJSON` are external collaborators, passed as the
`hexToAddress` and `unmarshal` oracles (with `none` standing for an
unmarshal error, and transactions abstracted to numeric identifiers).  A
line that does not split into two fields is skipped; an unmarshal failure
aborts with `none` (the Go function returns `nil, err`); otherwise the
transaction is appended to its sender's slice. -/
def pendingTxsLoop (hexToAddress : Line → String) (unmarshal : Line → Option Nat) :
    List Line → (String → List Nat) → Option (String → List Nat)
  | [], result => some result
  | line :: rest, result =>
    match splitN2 line with
    | [fromString, txString] =>
      match unmarshal txString with
      | none => none
      | some tx =>
        pendingTxsLoop hexToAddress unmarshal rest
          (fun a => if a = hexToAddress fromString then result a ++ [tx] else result a)
    | _ => pendingTxsLoop hexToAddress unmarshal rest result

/-- Embedding of `PendingTxsFromFile` on the scanned lines of the file,
starting from the empty sender map. -/
def PendingTxsFromFile (hexToAddress : Line → String) (unmarshal : Line → Option Nat)
    (lines : List Line) : Option (String → List Nat) :=
  pendingTxsLoop hexToAddress unmarshal lines (fun _ => [])

/-- The contribution of one line to sender `a`, used to state order
preservation for C10. -/
def pendingTxOfLine (hexToAddress : Line → String) (unmarshal : Line → Option Nat)
    (a : String) (line : Line) : Option Nat :=
  match splitN2 line with
  | [fromString, txString] =>
    if hexToAddress fromString = a then unmarshal txString else none
  | _ => none

/-- A line that does not split into two fields leaves the loop's behaviour
on the remaining lines unchanged. -/
lemma pendingTxsLoop_skip (hexToAddress : Line → String)
    (unmarshal : Line → Option Nat) (line : Line) (rest : List Line)
    (acc : String → List Nat) (hbad : (splitN2 line).length ≠ 2) :
    pendingTxsLoop hexToAddress unmarshal (line :: rest) acc =
      pendingTxsLoop hexToAddress unmarshal rest acc := by
  cases hsf : splitFirstSpace line with
  | none => simp [pendingTxsLoop, splitN2, hsf]
  | some pp =>
    obtain ⟨pre, post⟩ := pp
    exact absurd (by simp [splitN2, hsf]) hbad

/-- Removing a line that does not split into two fields anywhere in the
input leaves the loop's result unchanged. -/
lemma pendingTxsLoop_skip_middle (hexToAddress : Line → String)
    (unmarshal : Line → Option Nat) (line : Line)
    (hbad : (splitN2 line).length ≠ 2) :
    ∀ (pre post : List Line) (acc : String → List Nat),
      pendingTxsLoop hexToAddress unmarshal (pre ++ line :: post) acc =
        pendingTxsLoop hexToAddress unmarshal (pre ++ post) acc := by
  intro pre
  induction pre with
  | nil =>
    intro post acc
    exact pendingTxsLoop_skip hexToAddress unmarshal line post acc hbad
  | cons p rest ih =>
    intro post acc
    cases hsf : splitFirstSpace p with
    | none =>
      have hsp : (splitN2 p).length ≠ 2 := by simp [splitN2, hsf]
      rw [List.cons_append, List.cons_append,
        pendingTxsLoop_skip hexToAddress unmarshal p _ acc hsp,
        pendingTxsLoop_skip hexToAddress unmarshal p _ acc hsp]
      exact ih post acc
    | some pp =>
      obtain ⟨pr, po⟩ := pp
      have hsp : splitN2 p = [pr, po] := by simp [splitN2, hsf]
      cases hq : unmarshal po with
      | none => simp [pendingTxsLoop, hsp, hq]
      | some tx =>
        simp only [List.cons_append, pendingTxsLoop, hsp, hq]
        exact ih post _

/-- The loop fails whenever some line splits into two fields whose
transaction part fails to unmarshal. -/
lemma pendingTxsLoop_fails_of_bad_line (hexToAddress : Line → String)
    (unmarshal : Line → Option Nat) :
    ∀ (lines : List Line) (acc : String → List Nat) (line f t : Line),
      line ∈ lines → splitN2 line = [f, t] → unmarshal t = none →
      pendingTxsLoop hexToAddress unmarshal lines acc = none := by
  intro lines
  induction lines with
  | nil =>
    intro _ _ _ _ hmem
    cases hmem
  | cons head rest ih =>
    intro acc line f t hmem hsplit hun
    cases hsf : splitFirstSpace head with
    | none =>
      rcases List.mem_cons.mp hmem with rfl | hmem2
      · simp [splitN2, hsf] at hsplit
      · rw [pendingTxsLoop_skip hexToAddress unmarshal head rest acc
          (by simp [splitN2, hsf])]
        exact ih acc line f t hmem2 hsplit hun
    | some pp =>
      obtain ⟨pre, post⟩ := pp
      have hsp : splitN2 head = [pre, post] := by simp [splitN2, hsf]
      cases hq : unmarshal post with
      | none => simp [pendingTxsLoop, hsp, hq]
      | some tx =>
        rcases List.mem_cons.mp hmem with rfl | hmem2
        · rw [hsp] at hsplit
          obtain ⟨rfl, rfl⟩ : pre = f ∧ post = t := by
            injection hsplit with h1 h2
            injection h2 with h2
            exact ⟨h1, h2⟩
          rw [hun] at hq
          cases hq
        · simpa [pendingTxsLoop, hsp, hq] using ih _ line f t hmem2 hsplit hun

/-- On success, each sender's slice is the accumulator's entry followed by
the per-line contributions in input order. -/
lemma pendingTxsLoop_order (hexToAddress : Line → String)
    (unmarshal : Line → Option Nat) :
    ∀ (lines : List Line) (acc m : String → List Nat) (a : String),
      pendingTxsLoop hexToAddress unmarshal lines acc = some m →
      m a = acc a ++ lines.filterMap (pendingTxOfLine hexToAddress unmarshal a) := by
  intro lines
  induction lines with
  | nil =>
    intro acc m a h
    simp only [pendingTxsLoop, Option.some.injEq] at h
    subst h
    simp
  | cons head rest ih =>
    intro acc m a h
    cases hsf : splitFirstSpace head with
    | none =>
      have hsp : splitN2 head = [head] := by simp [splitN2, hsf]
      rw [pendingTxsLoop_skip hexToAddress unmarshal head rest acc
        (by simp [hsp])] at h
      have hcontrib : pendingTxOfLine hexToAddress unmarshal a head = none := by
        simp [pendingTxOfLine, hsp]
      simp [List.filterMap_cons, hcontrib, ih acc m a h]
    | some pp =>
      obtain ⟨pre, post⟩ := pp
      have hsp : splitN2 head = [pre, post] := by simp [splitN2, hsf]
      cases hq : unmarshal post with
      | none => simp [pendingTxsLoop, hsp, hq] at h
      | some tx =>
        simp only [pendingTxsLoop, hsp, hq] at h
        have hrec := ih _ m a h
        have hcontrib : pendingTxOfLine hexToAddress unmarshal a head =
            if hexToAddress pre = a then some tx else none := by
          simp [pendingTxOfLine, hsp, hq]
        rw [List.filterMap_cons, hcontrib, hrec]
        by_cases ha : hexToAddress pre = a
        · subst ha
          simp
        · have ha2 : ¬a = hexToAddress pre := fun he => ha he.symm
          simp [ha, ha2]

/-- C10: a line that does not split into two space-separated fields is
silently skipped wherever it occurs; any line whose transaction part fails
to unmarshal makes the whole function return `none` (the nil map plus an
error); and on success every sender's transactions appear in the order
their lines occur in the file. -/
theorem PendingTxsFromFile_contract (hexToAddress : Line → String)
    (unmarshal : Line → Option Nat) :
    (∀ (line : Line) (pre post : List Line), (splitN2 line).length ≠ 2 →
      PendingTxsFromFile hexToAddress unmarshal (pre ++ line :: post) =
        PendingTxsFromFile hexToAddress unmarshal (pre ++ post)) ∧
    (∀ (lines : List Line) (line f t : Line),
      line ∈ lines → splitN2 line = [f, t] → unmarshal t = none →
      PendingTxsFromFile hexToAddress unmarshal lines = none) ∧
    (∀ (lines : List Line) (m : String → List Nat) (a : String),
      PendingTxsFromFile hexToAddress unmarshal lines = some m →
      m a = lines.filterMap (pendingTxOfLine hexToAddress unmarshal a)) := by
  refine ⟨?_, ?_, ?_⟩
  · intro line pre post hbad
    exact pendingTxsLoop_skip_middle hexToAddress unmarshal line hbad pre post _
  · intro lines line f t hmem hsplit hun
    exact pendingTxsLoop_fails_of_bad_line hexToAddress unmarshal lines _ line f t
      hmem hsplit hun
  · intro lines m a h
    simpa using pendingTxsLoop_order hexToAddress unmarshal lines _ m a h

/-- Unmarshal oracle for the C10 witness: the literal line fragment
`bad` fails to decode, anything else decodes to its length. -/
def unmarshalWitness : Line → Option Nat :=
  fun l => if l = ['b', 'a', 'd'] then none else some l.length

/-- Closed witness for C10: a space-less line is skipped, and a line whose
transaction fragment fails to unmarshal makes the whole run fail. -/
theorem PendingTxsFromFile_contract_witness :
    (PendingTxsFromFile String.mk unmarshalWitness
        ([] ++ ['n', 'o', 's', 'p'] :: [['x', ' ', 'o', 'k']]) =
      PendingTxsFromFile String.mk unmarshalWitness ([] ++ [['x', ' ', 'o', 'k']])) ∧
    PendingTxsFromFile String.mk unmarshalWitness [['x', ' ', 'b', 'a', 'd']] = none :=
  ⟨(PendingTxsFromFile_contract String.mk unmarshalWitness).1
      ['n', 'o', 's', 'p'] [] [['x', ' ', 'o', 'k']] (by decide),
    (PendingTxsFromFile_contract String.mk unmarshalWitness).2.1
      [['x', ' ', 'b', 'a', 'd']] ['x', ' ', 'b', 'a', 'd'] ['x'] ['b', 'a', 'd']
      (by decide) (by decide) (by decide)⟩
